import Mathlib

/-!
Verification of the exidvpn-server payment backend (src/server.js).

The development shallowly embeds the session store, the orchestration
pipeline of `POST /api/execute-privacy-transaction` (confirmation waiter,
balance verifier, privacy relay, activation issuer), the session creation
of `POST /api/create-session`, and the encoding normalization of
`POST /api/send-transaction`.

Modelling conventions:
- Ledger public keys and base58-rendered keys are opaque `Nat` codes.
- `Date.now()` readings are supplied as an explicit clock `Nat → Nat`
  giving the value of the n-th clock read performed by a handler.
- Each network collaborator (RPC status query, token-balance query,
  privacy-pool client, provisioning fetch) is supplied as an explicit
  result trace / result value; a JavaScript exception is `Except.error`
  carrying the error message.
- JavaScript strings are `String`; the base64 input of /api/send-transaction
  is modelled as the list of its character codes.
-/

namespace ExidVpn

/-- Modelled from the spec: fixed token mint identifier (`USDC_MINT`), an
opaque constant public key. -/
def usdcMint : Nat := 101

/-- Modelled from the spec: the fixed `TOKEN_PROGRAM_ID` of the token
program collaborator, an opaque constant. -/
def tokenProgramId : Nat := 102

/-- Modelled from the spec: the fixed `ASSOCIATED_TOKEN_PROGRAM_ID`
collaborator constant, opaque. -/
def associatedTokenProgramId : Nat := 103

/-- Modelled from the spec: keypair generation derives the public key
deterministically from the secret material (`Keypair.generate` /
`keypair.publicKey`); the secret is the model's randomness parameter. -/
def pubkeyOf (secret : Nat) : Nat := Nat.pair 1 secret

/-- Modelled from the spec: `bs58.encode` of the secret key, an injective
re-encoding whose internals are irrelevant to the contracts. -/
def bs58encode (secret : Nat) : Nat := Nat.pair 2 secret

/-- Modelled from the spec: `getAssociatedTokenAddress` from the spl-token
collaborator — a pure deterministic derivation of the token-account
address from (mint, owner, allowOwnerOffCurve, token program id,
associated-token program id). -/
def getAssociatedTokenAddress (mint owner : Nat) (allowOwnerOffCurve : Bool)
    (tokenProgId ataProgId : Nat) : Nat :=
  Nat.pair mint (Nat.pair owner
    (Nat.pair (cond allowOwnerOffCurve 1 0) (Nat.pair tokenProgId ataProgId)))

/-- The session record stored by `POST /api/create-session`
(src/server.js lines 99-107). -/
structure SessionRecord where
  burnerKeypairSecret : Nat
  burnerPublicKey : Nat
  burnerATA : Nat
  burnerPrivateKeyBase58 : Nat
  createdAt : Nat
  expiresAt : Nat
deriving DecidableEq, Repr

/-- The in-memory `sessions` Map, as an association list in insertion
order (JavaScript `Map` iterates in insertion order). -/
def Store := List (String × SessionRecord)

/-- `Map.prototype.get`. -/
def mapGet : Store → String → Option SessionRecord
  | [], _ => none
  | (k', v) :: rest, k => if k' = k then some v else mapGet rest k

/-- `Map.prototype.set`: replaces in place if the key exists, else
appends. -/
def mapSet : Store → String → SessionRecord → Store
  | [], k, v => [(k, v)]
  | (k', v') :: rest, k, v =>
      if k' = k then (k, v) :: rest else (k', v') :: mapSet rest k v

/-- `Map.prototype.delete`. -/
def mapDelete : Store → String → Store
  | [], _ => []
  | (k', v') :: rest, k =>
      if k' = k then rest else (k', v') :: mapDelete rest k

/-- The opportunistic eviction sweep of `POST /api/create-session`
(src/server.js lines 110-114): iterate entries in insertion order and
delete every entry with `Date.now() > session.expiresAt`.  `clock i` is
the `Date.now()` reading of the i-th iteration. -/
def sweepExpired (clock : Nat → Nat) : Nat → Store → Store
  | _, [] => []
  | i, e :: rest =>
      if clock i > e.2.expiresAt then sweepExpired clock (i + 1) rest
      else e :: sweepExpired clock (i + 1) rest

/-- Session id generation (src/server.js line 96):
`session_${Date.now()}_${random}` with `t` the clock reading. -/
def mkSessionId (t : Nat) (rand : String) : String :=
  "session_" ++ toString t ++ "_" ++ rand

/-- The record built by `POST /api/create-session` (src/server.js lines
99-107).  `clock 0` is the `Date.now()` used for the session id, `clock 1`
the one stored as `createdAt`, and `clock 2` the separate `Date.now()`
call used to compute `expiresAt` (line 106 performs its own clock read). -/
def createSessionRecord (secret : Nat) (clock : Nat → Nat) : SessionRecord :=
  { burnerKeypairSecret := secret
    burnerPublicKey := pubkeyOf secret
    burnerATA := getAssociatedTokenAddress usdcMint (pubkeyOf secret) false
      tokenProgramId associatedTokenProgramId
    burnerPrivateKeyBase58 := bs58encode secret
    createdAt := clock 1
    expiresAt := clock 2 + 15 * 60 * 1000 }

/-- `POST /api/create-session` (src/server.js lines 78-131): generate the
burner, derive its token-account address, build and insert the record,
then run the eviction sweep over the updated map (clock reads 3, 4, ...
are the per-entry `Date.now()` calls of the sweep).  Returns the session
id and the updated store. -/
def createSession (secret : Nat) (rand : String) (clock : Nat → Nat)
    (store : Store) : String × Store :=
  let sid := mkSessionId (clock 0) rand
  let sess := createSessionRecord secret clock
  let store1 := mapSet store sid sess
  (sid, sweepExpired (fun i => clock (3 + i)) 0 store1)

/-! ### Confirmation Waiter (src/server.js lines 150-176) -/

/-- The `value` of a `getSignatureStatus` response: the confirmation
level string and whether an on-chain error (`err`) is attached (`err` is
`true` when the JavaScript field is non-null). -/
structure StatusValue where
  confirmationStatus : String
  err : Bool
deriving DecidableEq, Repr

/-- JavaScript `String.prototype.startsWith`-style check over character
lists, used to build substring search. -/
def listStartsWith : List Char → List Char → Bool
  | [], _ => true
  | _ :: _, [] => false
  | a :: as, b :: bs => a = b && listStartsWith as bs

/-- Substring occurrence over character lists. -/
def listContainsSub (pat : List Char) : List Char → Bool
  | [] => pat.isEmpty
  | c :: cs => listStartsWith pat (c :: cs) || listContainsSub pat cs

/-- JavaScript `s.includes(pat)` (src/server.js line 168). -/
def strIncludes (s pat : String) : Bool :=
  listContainsSub pat.toList s.toList

/-- Outcome of the confirmation polling loop. -/
inductive ConfirmResult where
  /-- `confirmed = true; break` at the given attempt index. -/
  | confirmed (attempt : Nat)
  /-- An exception escaped the loop (rethrown by the catch). -/
  | failed (msg : String)
  /-- The 30-attempt budget ran out without confirmation. -/
  | timeout
deriving DecidableEq, Repr

/-- The `try` body of one confirmation attempt (src/server.js lines
155-166): query the status; on a `confirmed`/`finalized` level with no
error, break with success (`ok true`); with an attached error, throw
`'Funding transaction failed on-chain'`; otherwise fall through
(`ok false`).  An `error` is a thrown exception reaching the catch. -/
def confirmTryBody (r : Except String (Option StatusValue)) :
    Except String Bool :=
  match r with
  | .error m => .error m
  | .ok none => .ok false
  | .ok (some sv) =>
      if sv.confirmationStatus = "confirmed" ∨ sv.confirmationStatus = "finalized" then
        if sv.err = false then .ok true
        else .error "Funding transaction failed on-chain"
      else .ok false

/-- The confirmation polling loop (src/server.js lines 154-171): at most
`fuel` further attempts starting at attempt index `i`; the catch
(line 168) rethrows exactly when the message contains
`'failed on-chain'`, and otherwise swallows the exception and polls on. -/
def confirmAux (trace : Nat → Except String (Option StatusValue)) :
    Nat → Nat → ConfirmResult
  | _, 0 => .timeout
  | i, fuel + 1 =>
      match confirmTryBody (trace i) with
      | .ok true => .confirmed i
      | .ok false => confirmAux trace (i + 1) fuel
      | .error m =>
          if strIncludes m "failed on-chain" then .failed m
          else confirmAux trace (i + 1) fuel

/-- The funding-wait stage (src/server.js lines 150-176): run 30 attempts;
if the loop ends unconfirmed, throw the timeout error. -/
def fundingStage (fundingTxSignature : Option String)
    (trace : Nat → Except String (Option StatusValue)) : Except String Unit :=
  match fundingTxSignature with
  | none => .ok ()
  | some _ =>
      match confirmAux trace 0 30 with
      | .confirmed _ => .ok ()
      | .failed m => .error m
      | .timeout => .error "Funding transaction did not confirm within 30 seconds"

/-! ### Balance Verifier (src/server.js lines 181-196) -/

/-- The balance polling loop (src/server.js lines 182-192).  `usdcBalance`
starts at 0; a successful query overwrites it and the loop breaks as soon
as the freshly observed value reaches `required`; a query exception
leaves it unchanged.  Returns the final `usdcBalance` together with the
number of attempts performed (the index after the last query). -/
def balanceAux (required : Nat) (trace : Nat → Except String Nat) :
    Nat → Nat → Nat → Nat × Nat
  | i, 0, acc => (acc, i)
  | i, fuel + 1, acc =>
      match trace i with
      | .ok v => if required ≤ v then (v, i + 1) else balanceAux required trace (i + 1) fuel v
      | .error _ => balanceAux required trace (i + 1) fuel acc

/-- The full 10-attempt balance poll starting from balance 0. -/
def balanceRun (required : Nat) (trace : Nat → Except String Nat) : Nat × Nat :=
  balanceAux required trace 0 10 0

/-- The insufficient-funds error text (src/server.js line 195). -/
def insufficientMsg (observed required : Nat) : String :=
  "Insufficient USDC. Have: " ++ toString observed ++ ", Need: " ++ toString required

/-- The balance-verification stage (src/server.js lines 181-196): run the
poll; throw the insufficient-funds error when the final balance is still
below the requirement, else continue with the observed balance. -/
def balanceVerify (required : Nat) (trace : Nat → Except String Nat) :
    Except String Nat :=
  let b := (balanceRun required trace).1
  if b < required then .error (insufficientMsg b required)
  else .ok b

/-! ### Privacy Relay, Activation Issuer and the Orchestrator
(src/server.js lines 134-270) -/

/-- Process-wide payment configuration (src/server.js lines 21-27):
`PAYMENT_AMOUNT` in minor units of the stablecoin, the destination
`PAYMENT_WALLET`, and the activation URI scheme `DESKTOP_SCHEME`. -/
structure Config where
  paymentAmount : Nat
  paymentWallet : String
  desktopScheme : String

/-- The argument object of `client.depositSPL` (src/server.js lines
207-210).  `amount` is a JavaScript number, modelled as a rational. -/
structure DepositCall where
  amount : ℚ
  mintAddress : Nat
deriving DecidableEq

/-- The argument object of `client.withdrawSPL` (src/server.js lines
218-222). -/
structure WithdrawCall where
  amount : ℚ
  mintAddress : Nat
  recipientAddress : String
deriving DecidableEq

/-- The deposit request built by the handler:
`{ amount: PAYMENT_AMOUNT / 1_000_000, mintAddress: USDC_MINT }`
(src/server.js lines 207-210). -/
def depositCallOf (cfg : Config) : DepositCall :=
  { amount := (cfg.paymentAmount : ℚ) / 1000000
    mintAddress := usdcMint }

/-- The withdrawal request built by the handler:
`{ mintAddress: USDC_MINT, amount: PAYMENT_AMOUNT / 1_000_000,
recipientAddress: PAYMENT_WALLET }` (src/server.js lines 218-222). -/
def withdrawCallOf (cfg : Config) : WithdrawCall :=
  { amount := (cfg.paymentAmount : ℚ) / 1000000
    mintAddress := usdcMint
    recipientAddress := cfg.paymentWallet }

/-- Result of the provisioning `fetch` (src/server.js lines 227-244):
`ok` is `response.ok`, `token`/`deviceId` are `deviceData.data?.token`
and `deviceData.data?.id` (absent field gives `none`). -/
structure DeviceFetchResult where
  ok : Bool
  token : Option String
  deviceId : Option String
deriving DecidableEq, Repr

/-- The HTTP outcome of `POST /api/execute-privacy-transaction`:
the success payload (lines 258-264), a 400 validation error, or the
catch-all 500 error (lines 266-269). -/
inductive ExecResponse where
  | ok (deviceId : Option String) (deviceToken : String)
      (deepLink : String) (withdrawalTx : String)
  | badRequest (errMsg : String)
  | serverError (errMsg : String)
deriving DecidableEq, Repr

/-- Whether the handler answered with the success payload. -/
def ExecResponse.isSuccess : ExecResponse → Bool
  | .ok _ _ _ _ => true
  | _ => false

/-- The device-creation stage (src/server.js lines 227-248): a rejected
fetch propagates; a non-ok response throws `'Failed to create device'`;
a missing or empty token throws `'No device token received'` (JavaScript
`if (!deviceToken)` also rejects the empty string). -/
def deviceStage (dev : Except String DeviceFetchResult) : Except String (Option String × String) :=
  match dev with
  | .error m => .error m
  | .ok d =>
      if d.ok = false then .error "Failed to create device"
      else
        match d.token with
        | none => .error "No device token received"
        | some tok =>
            if tok.isEmpty then .error "No device token received"
            else .ok (d.deviceId, tok)

/-- `POST /api/execute-privacy-transaction` (src/server.js lines
134-270).  Inputs: the configuration, the current session store, the
request body (`sessionId`, optional `fundingTxSignature`; a falsy field
is `none`), and the collaborator behaviours: the per-attempt
`getSignatureStatus` trace, the per-attempt `getTokenAccountBalance`
trace (already parsed to minor units), the pool client's `depositSPL`
and `withdrawSPL`, and the provisioning fetch result.  Any stage throw
is caught by the handler's catch (lines 266-269), which answers 500 and
leaves the store untouched.  Returns the response and the store after
the run. -/
def executeTransaction (cfg : Config) (store : Store)
    (sessionId : Option String) (fundingTxSignature : Option String)
    (sigTrace : Nat → Except String (Option StatusValue))
    (balTrace : Nat → Except String Nat)
    (depositSPL : DepositCall → Except String String)
    (withdrawSPL : WithdrawCall → Except String String)
    (deviceFetch : Except String DeviceFetchResult) : ExecResponse × Store :=
  match sessionId with
  | none => (.badRequest "sessionId is required", store)
  | some sid =>
      match mapGet store sid with
      | none => (.badRequest "Invalid or expired session", store)
      | some _sess =>
          match fundingStage fundingTxSignature sigTrace with
          | .error m => (.serverError m, store)
          | .ok _ =>
              match balanceVerify cfg.paymentAmount balTrace with
              | .error m => (.serverError m, store)
              | .ok _bal =>
                  match depositSPL (depositCallOf cfg) with
                  | .error m => (.serverError m, store)
                  | .ok _depSig =>
                      match withdrawSPL (withdrawCallOf cfg) with
                      | .error m => (.serverError m, store)
                      | .ok wSig =>
                          match deviceStage deviceFetch with
                          | .error m => (.serverError m, store)
                          | .ok (did, tok) =>
                              (.ok did tok
                                 (cfg.desktopScheme ++ "://activate?token=" ++ tok)
                                 wSig,
                               mapDelete store sid)

/-- Success of every pipeline stage of one orchestrator run, phrased
over the embedded stage functions. -/
def stagesOk (cfg : Config) (fundingTxSignature : Option String)
    (sigTrace : Nat → Except String (Option StatusValue))
    (balTrace : Nat → Except String Nat)
    (depositSPL : DepositCall → Except String String)
    (withdrawSPL : WithdrawCall → Except String String)
    (deviceFetch : Except String DeviceFetchResult) : Bool :=
  (fundingStage fundingTxSignature sigTrace).toBool
    && (balanceVerify cfg.paymentAmount balTrace).toBool
    && (depositSPL (depositCallOf cfg)).toBool
    && (withdrawSPL (withdrawCallOf cfg)).toBool
    && (deviceStage deviceFetch).toBool

/-! ### Store-mutating operations, for immutability invariants -/

/-- One inbound call that can touch the session store: a
`/api/create-session` call (with its randomness and clock) or an
`/api/execute-privacy-transaction` call (with its body and collaborator
behaviours).  The remaining endpoints never touch the store. -/
inductive StoreOp where
  | create (secret : Nat) (rand : String) (clock : Nat → Nat)
  | execute (cfg : Config) (sessionId : Option String)
      (fundingTxSignature : Option String)
      (sigTrace : Nat → Except String (Option StatusValue))
      (balTrace : Nat → Except String Nat)
      (depositSPL : DepositCall → Except String String)
      (withdrawSPL : WithdrawCall → Except String String)
      (deviceFetch : Except String DeviceFetchResult)

/-- Effect of one inbound call on the session store. -/
def applyStoreOp (store : Store) : StoreOp → Store
  | .create secret rand clock => (createSession secret rand clock store).2
  | .execute cfg sid fsig sigT balT dep wd dev =>
      (executeTransaction cfg store sid fsig sigT balT dep wd dev).2

/-- The session id an operation may insert under is different from `k`
(create-session ids are assumed unique, per the spec's id contract). -/
def freshFor (k : String) : StoreOp → Prop
  | .create _ rand clock => mkSessionId (clock 0) rand ≠ k
  | .execute _ _ _ _ _ _ _ _ => True

/-! ### Transaction Relay encoding normalization
(src/server.js lines 284-290) -/

/-- Modelled from the spec: the RFC 4648 base64 alphabet used by the
runtime's `Buffer` base64 codec — six-bit value to ASCII code. -/
def sixbitToAscii (v : Nat) : Nat :=
  if v < 26 then 65 + v
  else if v < 52 then 97 + (v - 26)
  else if v < 62 then 48 + (v - 52)
  else if v = 62 then 43
  else 47

/-- Modelled from the spec: inverse alphabet lookup, ASCII code to
six-bit value. -/
def asciiToSixbit (c : Nat) : Nat :=
  if 65 ≤ c ∧ c ≤ 90 then c - 65
  else if 97 ≤ c ∧ c ≤ 122 then c - 97 + 26
  else if 48 ≤ c ∧ c ≤ 57 then c - 48 + 52
  else if c = 43 then 62
  else 63

/-- Whether an ASCII code is a base64 alphabet character (the runtime's
base64 decoder skips every other character, padding included). -/
def isB64Char (c : Nat) : Bool :=
  (65 ≤ c && c ≤ 90) || (97 ≤ c && c ≤ 122) || (48 ≤ c && c ≤ 57)
    || c = 43 || c = 47

/-- Modelled from the spec: standard base64 encoding of a byte sequence
to ASCII codes (with `=` padding, code 61), as a client produces for the
`signedTransaction` string field. -/
def b64EncodeBytes : List Nat → List Nat
  | b0 :: b1 :: b2 :: rest =>
      sixbitToAscii (b0 / 4) :: sixbitToAscii ((b0 % 4) * 16 + b1 / 16)
        :: sixbitToAscii ((b1 % 16) * 4 + b2 / 64) :: sixbitToAscii (b2 % 64)
        :: b64EncodeBytes rest
  | [b0, b1] =>
      [sixbitToAscii (b0 / 4), sixbitToAscii ((b0 % 4) * 16 + b1 / 16),
       sixbitToAscii ((b1 % 16) * 4), 61]
  | [b0] =>
      [sixbitToAscii (b0 / 4), sixbitToAscii ((b0 % 4) * 16), 61, 61]
  | [] => []

/-- Reassemble bytes from six-bit groups (a trailing lone six-bit value
carries no complete byte and is dropped, as the runtime does). -/
def b64DecodeSixbits : List Nat → List Nat
  | s0 :: s1 :: s2 :: s3 :: rest =>
      (s0 * 4 + s1 / 16) :: ((s1 % 16) * 16 + s2 / 4) :: ((s2 % 4) * 64 + s3)
        :: b64DecodeSixbits rest
  | [s0, s1, s2] => [s0 * 4 + s1 / 16, (s1 % 16) * 16 + s2 / 4]
  | [s0, s1] => [s0 * 4 + s1 / 16]
  | _ => []

/-- Modelled from the spec: `Buffer.from(s, 'base64')` — skip
non-alphabet characters (padding included), map the rest through the
inverse alphabet and reassemble bytes. -/
def base64Decode (chars : List Nat) : List Nat :=
  b64DecodeSixbits ((chars.filter isB64Char).map asciiToSixbit)

/-- The three accepted shapes of the `signedTransaction` body field
(src/server.js lines 284-290): a raw array of byte numbers, a base64
string (modelled by its character codes), or an object whose
`Object.values` form the byte sequence. -/
inductive SignedTxEncoding where
  | rawArray (bytes : List Nat)
  | b64String (chars : List Nat)
  | keyedObject (values : List Nat)

/-- The normalization of `POST /api/send-transaction` (src/server.js
lines 283-290): `Buffer.from(array)` coerces each element to an octet
(reduction mod 256), a string is base64-decoded, and otherwise
`Buffer.from(Object.values(obj))` applies. -/
def normalizeSignedTransaction : SignedTxEncoding → List Nat
  | .rawArray bytes => bytes.map (fun b => b % 256)
  | .b64String chars => base64Decode chars
  | .keyedObject values => values.map (fun b => b % 256)

/-! ### Well-formedness and concrete evaluation inputs -/

/-- A JavaScript `Map` never holds two entries with the same key; a
store is well-formed when its keys are pairwise distinct. -/
def keysNodup (m : Store) : Prop := (m.map Prod.fst).Nodup

/-- A concrete stored session record whose `expiresAt` is 1000, for
evaluating the handlers on an expired-but-unevicted entry. -/
def demoRec : SessionRecord :=
  { burnerKeypairSecret := 0
    burnerPublicKey := 1
    burnerATA := 2
    burnerPrivateKeyBase58 := 3
    createdAt := 100
    expiresAt := 1000 }

/-- A concrete store holding `demoRec` under id `"sid"`. -/
def demoStore : Store := [("sid", demoRec)]

/-- The default configuration: `PAYMENT_AMOUNT = 1000000` minor units. -/
def demoCfg : Config :=
  { paymentAmount := 1000000
    paymentWallet := "PAYWALLET"
    desktopScheme := "exidvpn" }

/-- A status trace whose first poll already reports `confirmed` with no
on-chain error. -/
def demoSigTrace : Nat → Except String (Option StatusValue) :=
  fun _ => .ok (some { confirmationStatus := "confirmed", err := false })

/-- A balance trace observing exactly the required 1000000 minor units. -/
def demoBalTrace : Nat → Except String Nat := fun _ => .ok 1000000

/-- A pool deposit that succeeds with a settlement signature. -/
def demoDeposit : DepositCall → Except String String := fun _ => .ok "depositSig"

/-- A pool withdrawal that succeeds with a settlement signature. -/
def demoWithdraw : WithdrawCall → Except String String := fun _ => .ok "withdrawSig"

/-- A provisioning call that succeeds with a device token. -/
def demoDevice : Except String DeviceFetchResult :=
  .ok { ok := true, token := some "tok1", deviceId := some "dev1" }

/-- A clock that advances by one millisecond between consecutive
`Date.now()` reads. -/
def driftClock : Nat → Nat := fun i => 1000 + i

/-! ### Store lemmas -/

theorem mapGet_mapSet_self (m : Store) (k : String) (v : SessionRecord) :
    mapGet (mapSet m k v) k = some v := by
  induction m with
  | nil => simp [mapSet, mapGet]
  | cons e rest ih =>
      obtain ⟨k0, v0⟩ := e
      by_cases h : k0 = k
      · simp [mapSet, h, mapGet]
      · simp [mapSet, h, mapGet, ih]

theorem mapGet_mapSet_ne (m : Store) (k : String) (v : SessionRecord)
    (k2 : String) (h : k ≠ k2) : mapGet (mapSet m k v) k2 = mapGet m k2 := by
  induction m with
  | nil => simp [mapSet, mapGet, h]
  | cons e rest ih =>
      obtain ⟨k0, v0⟩ := e
      by_cases h0 : k0 = k
      · subst h0
        simp [mapSet, mapGet, h]
      · simp [mapSet, h0, mapGet, ih]

theorem mapGet_eq_none_of_not_mem (m : Store) (k : String)
    (h : k ∉ m.map Prod.fst) : mapGet m k = none := by
  induction m with
  | nil => rfl
  | cons e rest ih =>
      obtain ⟨k0, v0⟩ := e
      simp only [List.map_cons, List.mem_cons, not_or] at h
      have h1 : ¬ k0 = k := fun hx => h.1 hx.symm
      simp [mapGet, h1, ih h.2]

theorem keys_mapSet_subset (m : Store) (k : String) (v : SessionRecord) :
    ((mapSet m k v).map Prod.fst) ⊆ k :: m.map Prod.fst := by
  induction m with
  | nil => simp [mapSet]
  | cons e rest ih =>
      obtain ⟨k0, v0⟩ := e
      by_cases h : k0 = k
      · subst h
        simp [mapSet]
      · simp only [mapSet, if_neg h, List.map_cons]
        intro x hx
        rcases List.mem_cons.mp hx with hx0 | hx1
        · simp [hx0]
        · rcases List.mem_cons.mp (ih hx1) with hk | hm
          · simp [hk]
          · simp [hm]

theorem keysNodup_mapSet (m : Store) (k : String) (v : SessionRecord)
    (h : keysNodup m) : keysNodup (mapSet m k v) := by
  induction m with
  | nil => simp [keysNodup, mapSet]
  | cons e rest ih =>
      obtain ⟨k0, v0⟩ := e
      simp only [keysNodup, List.map_cons, List.nodup_cons] at h
      by_cases h0 : k0 = k
      · subst h0
        simpa [keysNodup, mapSet] using h
      · have htail := ih h.2
        simp only [keysNodup, mapSet, if_neg h0, List.map_cons, List.nodup_cons]
        refine ⟨fun hmem => ?_, htail⟩
        rcases List.mem_cons.mp (keys_mapSet_subset rest k v hmem) with hk | hm
        · exact h0 hk
        · exact h.1 hm

theorem sweepExpired_sublist (c : Nat → Nat) (m : Store) :
    ∀ i : Nat, List.Sublist (sweepExpired c i m) m := by
  induction m with
  | nil =>
      intro i
      simp [sweepExpired]
  | cons e rest ih =>
      intro i
      by_cases h : c i > e.2.expiresAt
      · simp only [sweepExpired, if_pos h]
        exact List.Sublist.cons e (ih (i + 1))
      · simp only [sweepExpired, if_neg h]
        exact List.Sublist.cons₂ e (ih (i + 1))

theorem mapDelete_sublist (m : Store) (k : String) :
    List.Sublist (mapDelete m k) m := by
  induction m with
  | nil => simp [mapDelete]
  | cons e rest ih =>
      obtain ⟨k0, v0⟩ := e
      by_cases h : k0 = k
      · simp only [mapDelete, if_pos h]
        exact List.Sublist.cons (k0, v0) (List.Sublist.refl rest)
      · simp only [mapDelete, if_neg h]
        exact List.Sublist.cons₂ (k0, v0) ih

theorem keysNodup_sweepExpired (c : Nat → Nat) (i : Nat) (m : Store)
    (h : keysNodup m) : keysNodup (sweepExpired c i m) :=
  h.sublist (List.Sublist.map Prod.fst (sweepExpired_sublist c m i))

theorem keysNodup_mapDelete (m : Store) (k : String) (h : keysNodup m) :
    keysNodup (mapDelete m k) :=
  h.sublist (List.Sublist.map Prod.fst (mapDelete_sublist m k))

theorem mapGet_sweepExpired_nodup (c : Nat → Nat) :
    ∀ m : Store, keysNodup m → ∀ (i : Nat) (k : String) (r : SessionRecord),
      mapGet (sweepExpired c i m) k = some r → mapGet m k = some r := by
  intro m
  induction m with
  | nil =>
      intro _ i k r hget
      simp [sweepExpired, mapGet] at hget
  | cons e rest ih =>
      obtain ⟨k0, v0⟩ := e
      intro h i k r hget
      simp only [keysNodup, List.map_cons, List.nodup_cons] at h
      by_cases hdrop : c i > v0.expiresAt
      · rw [show sweepExpired c i ((k0, v0) :: rest) = sweepExpired c (i + 1) rest from
          by simp [sweepExpired, hdrop]] at hget
        have hrest := ih h.2 (i + 1) k r hget
        by_cases hk : k0 = k
        · subst hk
          rw [mapGet_eq_none_of_not_mem rest k0 h.1] at hrest
          cases hrest
        · simp [mapGet, hk, hrest]
      · rw [show sweepExpired c i ((k0, v0) :: rest) = (k0, v0) :: sweepExpired c (i + 1) rest from
          by simp [sweepExpired, hdrop]] at hget
        by_cases hk : k0 = k
        · simp only [mapGet, if_pos hk] at hget ⊢
          exact hget
        · simp only [mapGet, if_neg hk] at hget ⊢
          exact ih h.2 (i + 1) k r hget

theorem mapGet_mapDelete_nodup :
    ∀ m : Store, keysNodup m → ∀ (k k2 : String) (r : SessionRecord),
      mapGet (mapDelete m k) k2 = some r → mapGet m k2 = some r := by
  intro m
  induction m with
  | nil =>
      intro _ k k2 r hget
      simp [mapDelete, mapGet] at hget
  | cons e rest ih =>
      obtain ⟨k0, v0⟩ := e
      intro h k k2 r hget
      simp only [keysNodup, List.map_cons, List.nodup_cons] at h
      by_cases hk : k0 = k
      · subst hk
        rw [show mapDelete ((k0, v0) :: rest) k0 = rest from by simp [mapDelete]] at hget
        by_cases hk2 : k0 = k2
        · subst hk2
          rw [mapGet_eq_none_of_not_mem rest k0 h.1] at hget
          cases hget
        · simp [mapGet, hk2, hget]
      · rw [show mapDelete ((k0, v0) :: rest) k = (k0, v0) :: mapDelete rest k from
          by simp [mapDelete, hk]] at hget
        by_cases hk2 : k0 = k2
        · simp only [mapGet, if_pos hk2] at hget ⊢
          exact hget
        · simp only [mapGet, if_neg hk2] at hget ⊢
          exact ih h.2 k k2 r hget

/-! ### Claim C6 — session TTL invariant -/

/-- C6 counterexample: `createdAt` and `expiresAt` come from two separate
`Date.now()` reads (src/server.js lines 105-106); when the clock advances
by one millisecond between them, the stored record violates
`expiresAt = createdAt + 900000`. -/
theorem claim_C6_counterexample :
    (createSessionRecord 0 driftClock).expiresAt
      ≠ (createSessionRecord 0 driftClock).createdAt + 900000 := by
  decide

/-- C6 (amended): a record stored by session creation has
`createdAt` equal to the second clock read and `expiresAt` equal to the
third clock read plus exactly 900000 ms; whenever the clock does not
advance between those two reads, `expiresAt = createdAt + 900000` holds. -/
theorem claim_C6_session_ttl (secret : Nat) (rand : String) (clock : Nat → Nat)
    (store : Store) (r : SessionRecord) (h0 : keysNodup store)
    (h : mapGet (createSession secret rand clock store).2
      (createSession secret rand clock store).1 = some r) :
    r.createdAt = clock 1 ∧ r.expiresAt = clock 2 + 900000
      ∧ (clock 1 = clock 2 → r.expiresAt = r.createdAt + 900000) := by
  have h1 : keysNodup
      (mapSet store (mkSessionId (clock 0) rand) (createSessionRecord secret clock)) :=
    keysNodup_mapSet store _ _ h0
  have h2 : mapGet
      (mapSet store (mkSessionId (clock 0) rand) (createSessionRecord secret clock))
      (mkSessionId (clock 0) rand) = some r :=
    mapGet_sweepExpired_nodup _ _ h1 0 _ r (by simpa [createSession] using h)
  rw [mapGet_mapSet_self] at h2
  obtain rfl : createSessionRecord secret clock = r := Option.some.inj h2
  refine ⟨rfl, by norm_num [createSessionRecord], fun he => ?_⟩
  simp [createSessionRecord, he]

/-- C6 witness: with a constant clock the invariant holds on the stored
record. -/
theorem claim_C6_witness :
    (createSessionRecord 0 (fun _ => 5)).expiresAt
      = (createSessionRecord 0 (fun _ => 5)).createdAt + 900000 :=
  (claim_C6_session_ttl 0 "abc" (fun _ => 5) []
    (createSessionRecord 0 (fun _ => 5)) (by simp [keysNodup]) (by decide)).2.2 rfl

/-! ### Claim C2 — pool amounts -/

/-- C2 counterexample: with the default configured amount of 1000000
minor units, the amount the handler passes to the pool deposit and
withdrawal (src/server.js lines 208 and 220) is `PAYMENT_AMOUNT / 1e6 = 1`,
not the configured minor-unit amount itself. -/
theorem claim_C2_counterexample :
    (depositCallOf demoCfg).amount ≠ (demoCfg.paymentAmount : ℚ)
      ∧ (withdrawCallOf demoCfg).amount ≠ (demoCfg.paymentAmount : ℚ) := by
  constructor <;> norm_num [depositCallOf, withdrawCallOf, demoCfg]

/-- C2 (amended): in every run the deposit amount and the withdrawal
amount passed to the pool are equal to each other, and both equal the
configured payment amount divided by 1,000,000 (the amount converted
from minor units to whole-token units); no other amount is ever passed. -/
theorem claim_C2_pool_amounts (cfg : Config) :
    (depositCallOf cfg).amount = (withdrawCallOf cfg).amount
      ∧ (depositCallOf cfg).amount = (cfg.paymentAmount : ℚ) / 1000000
      ∧ (withdrawCallOf cfg).amount = (cfg.paymentAmount : ℚ) / 1000000 :=
  ⟨rfl, rfl, rfl⟩

/-! ### Claim C1 — expiry is not enforced on read -/

/-- C1 counterexample: a stored record whose `expiresAt` (1000) is at or
before the current instant is still returned by the execute handler's
lookup (src/server.js line 142), and the pipeline then runs to
completion instead of answering 'Invalid or expired session'. -/
theorem claim_C1_counterexample :
    demoRec.expiresAt ≤ 1000
      ∧ mapGet demoStore "sid" = some demoRec
      ∧ (executeTransaction demoCfg demoStore (some "sid") none demoSigTrace
          demoBalTrace demoDeposit demoWithdraw demoDevice).1
          ≠ ExecResponse.badRequest "Invalid or expired session"
      ∧ (executeTransaction demoCfg demoStore (some "sid") none demoSigTrace
          demoBalTrace demoDeposit demoWithdraw demoDevice).1.isSuccess = true := by
  refine ⟨by decide, by decide, by decide, by decide⟩

theorem executeTransaction_found_not_badRequest (cfg : Config) (store : Store)
    (sid : String) (sess : SessionRecord) (fsig : Option String)
    (sigT : Nat → Except String (Option StatusValue))
    (balT : Nat → Except String Nat)
    (dep : DepositCall → Except String String)
    (wd : WithdrawCall → Except String String)
    (dev : Except String DeviceFetchResult)
    (hget : mapGet store sid = some sess) (msg : String) :
    (executeTransaction cfg store (some sid) fsig sigT balT dep wd dev).1
      ≠ ExecResponse.badRequest msg := by
  simp only [executeTransaction, hget]
  cases hf : fundingStage fsig sigT with
  | error m => simp
  | ok u =>
      cases hb : balanceVerify cfg.paymentAmount balT with
      | error m => simp
      | ok b =>
          cases hd : dep (depositCallOf cfg) with
          | error m => simp
          | ok ds =>
              cases hw : wd (withdrawCallOf cfg) with
              | error m => simp
              | ok ws =>
                  cases hv : deviceStage dev with
                  | error m => simp
                  | ok p =>
                      obtain ⟨did, tok⟩ := p
                      simp

/-- C1 (amended): the Start-state lookup of the execute handler reports
'Invalid or expired session' exactly when the session id is physically
absent from the store; the stored `expiresAt` is never consulted on
read, so an expired-but-unevicted entry is returned and processed. -/
theorem claim_C1_lookup_iff_absent (cfg : Config) (store : Store) (sid : String)
    (fsig : Option String)
    (sigT : Nat → Except String (Option StatusValue))
    (balT : Nat → Except String Nat)
    (dep : DepositCall → Except String String)
    (wd : WithdrawCall → Except String String)
    (dev : Except String DeviceFetchResult) :
    ((executeTransaction cfg store (some sid) fsig sigT balT dep wd dev).1
        = ExecResponse.badRequest "Invalid or expired session")
      ↔ mapGet store sid = none := by
  constructor
  · intro h
    cases hget : mapGet store sid with
    | none => rfl
    | some sess =>
        exact absurd h
          (executeTransaction_found_not_badRequest cfg store sid sess fsig
            sigT balT dep wd dev hget _)
  · intro h
    simp [executeTransaction, h]

/-! ### Claims C5 and C9 — confirmation waiter -/

theorem strIncludes_onchain_msg :
    strIncludes "Funding transaction failed on-chain" "failed on-chain" = true := by
  decide

theorem confirmAux_confirmed_status
    (trace : Nat → Except String (Option StatusValue)) :
    ∀ (fuel i j : Nat), confirmAux trace i fuel = .confirmed j →
      ∃ sv, trace j = .ok (some sv)
        ∧ (sv.confirmationStatus = "confirmed" ∨ sv.confirmationStatus = "finalized")
        ∧ sv.err = false := by
  intro fuel
  induction fuel with
  | zero =>
      intro i j h
      simp [confirmAux] at h
  | succ fuel ih =>
      intro i j h
      cases h0 : trace i with
      | error m =>
          rw [show confirmAux trace i (fuel + 1)
              = (if strIncludes m "failed on-chain" then ConfirmResult.failed m
                 else confirmAux trace (i + 1) fuel) from
            by simp [confirmAux, confirmTryBody, h0]] at h
          by_cases hs : strIncludes m "failed on-chain"
          · rw [if_pos hs] at h
            cases h
          · rw [if_neg hs] at h
            exact ih (i + 1) j h
      | ok st =>
          cases st with
          | none =>
              rw [show confirmAux trace i (fuel + 1) = confirmAux trace (i + 1) fuel from
                by simp [confirmAux, confirmTryBody, h0]] at h
              exact ih (i + 1) j h
          | some sv =>
              by_cases hcs : sv.confirmationStatus = "confirmed"
                  ∨ sv.confirmationStatus = "finalized"
              · by_cases herr : sv.err = false
                · rw [show confirmAux trace i (fuel + 1) = ConfirmResult.confirmed i from
                    by simp [confirmAux, confirmTryBody, h0, if_pos hcs, herr]] at h
                  obtain rfl : i = j := by cases h; rfl
                  exact ⟨sv, h0, hcs, herr⟩
                · rw [show confirmAux trace i (fuel + 1)
                      = ConfirmResult.failed "Funding transaction failed on-chain" from by
                    simp only [confirmAux, confirmTryBody, h0, if_pos hcs, if_neg herr,
                      strIncludes_onchain_msg, if_pos]] at h
                  cases h
              · rw [show confirmAux trace i (fuel + 1) = confirmAux trace (i + 1) fuel from
                  by simp [confirmAux, confirmTryBody, h0, if_neg hcs]] at h
                exact ih (i + 1) j h

theorem confirmAux_immediate_fail
    (trace : Nat → Except String (Option StatusValue)) (i fuel : Nat)
    (sv : StatusValue) (h0 : trace i = .ok (some sv))
    (hcs : sv.confirmationStatus = "confirmed" ∨ sv.confirmationStatus = "finalized")
    (herr : sv.err = true) :
    confirmAux trace i (fuel + 1) = .failed "Funding transaction failed on-chain" := by
  have herr2 : ¬ sv.err = false := by simp [herr]
  simp only [confirmAux, confirmTryBody, h0, if_pos hcs, if_neg herr2,
    strIncludes_onchain_msg, if_pos]

/-- C5 (confirmed): the Confirmation Waiter only ever breaks with success
on an attempt whose status is `confirmed`/`finalized` with no on-chain
error, so it never returns success for a status carrying an error; and an
attempt that observes a confirmed or finalized status carrying an
on-chain error terminates the whole wait right there with the
'failed on-chain' error, with no further polling. -/
theorem claim_C5_no_success_on_error :
    (∀ (trace : Nat → Except String (Option StatusValue)) (fuel i j : Nat),
       confirmAux trace i fuel = .confirmed j →
         ∃ sv, trace j = .ok (some sv)
           ∧ (sv.confirmationStatus = "confirmed" ∨ sv.confirmationStatus = "finalized")
           ∧ sv.err = false)
    ∧ (∀ (trace : Nat → Except String (Option StatusValue)) (i fuel : Nat)
         (sv : StatusValue), trace i = .ok (some sv) →
         (sv.confirmationStatus = "confirmed" ∨ sv.confirmationStatus = "finalized") →
         sv.err = true →
         confirmAux trace i (fuel + 1) = .failed "Funding transaction failed on-chain") :=
  ⟨fun trace fuel i j h => confirmAux_confirmed_status trace fuel i j h,
   fun trace i fuel sv h0 hcs herr => confirmAux_immediate_fail trace i fuel sv h0 hcs herr⟩

/-- C5 witness: a first poll reporting `confirmed` with an attached
on-chain error makes the 30-attempt waiter fail immediately. -/
theorem claim_C5_witness :
    confirmAux (fun _ => Except.ok (some ⟨"confirmed", true⟩)) 0 30
      = ConfirmResult.failed "Funding transaction failed on-chain" :=
  claim_C5_no_success_on_error.2 (fun _ => Except.ok (some ⟨"confirmed", true⟩))
    0 29 ⟨"confirmed", true⟩ rfl (Or.inl rfl) rfl

/-- C9 (confirmed): a per-attempt query exception is terminal exactly
when its message contains the substring 'failed on-chain'
(src/server.js line 168): such an exception aborts the wait with that
message, any other exception is swallowed and polling continues with the
next attempt. -/
theorem claim_C9_catch_classification
    (trace : Nat → Except String (Option StatusValue)) (i fuel : Nat)
    (m : String) (h : trace i = .error m) :
    confirmAux trace i (fuel + 1)
      = (if strIncludes m "failed on-chain" then ConfirmResult.failed m
         else confirmAux trace (i + 1) fuel) := by
  simp [confirmAux, confirmTryBody, h]

/-- C9 witness: a transient exception ('boom') is swallowed and polling
continues; the classification is the substring test. -/
theorem claim_C9_witness :
    confirmAux (fun _ => Except.error "boom") 0 30
      = (if strIncludes "boom" "failed on-chain" then ConfirmResult.failed "boom"
         else confirmAux (fun _ => Except.error "boom") 1 29) :=
  claim_C9_catch_classification (fun _ => Except.error "boom") 0 29 "boom" rfl

/-! ### Claims C4 and C10 — balance verifier -/

theorem balanceAux_stops (req : Nat) (trace : Nat → Except String Nat) :
    ∀ (d i fuel acc v : Nat), d < fuel →
      (∀ j, j < d → ∀ w, trace (i + j) = .ok w → w < req) →
      trace (i + d) = .ok v → req ≤ v →
      balanceAux req trace i fuel acc = (v, i + d + 1) := by
  intro d
  induction d with
  | zero =>
      intro i fuel acc v hfuel hbelow htr hge
      obtain ⟨fuel2, rfl⟩ : ∃ f2, fuel = f2 + 1 := ⟨fuel - 1, by omega⟩
      have htr0 : trace i = .ok v := by simpa using htr
      simp [balanceAux, htr0, hge]
  | succ d ih =>
      intro i fuel acc v hfuel hbelow htr hge
      obtain ⟨fuel2, rfl⟩ : ∃ f2, fuel = f2 + 1 := ⟨fuel - 1, by omega⟩
      have htr1 : trace (i + 1 + d) = .ok v := by
        rw [show i + 1 + d = i + (d + 1) from by omega]
        exact htr
      have hbelow1 : ∀ j, j < d → ∀ w, trace (i + 1 + j) = .ok w → w < req := by
        intro j hj w hw
        refine hbelow (j + 1) (by omega) w ?_
        rw [show i + (j + 1) = i + 1 + j from by omega]
        exact hw
      cases h0 : trace i with
      | ok w =>
          have hw : w < req := hbelow 0 (by omega) w (by simpa using h0)
          have hnot : ¬ req ≤ w := by omega
          rw [show balanceAux req trace i (fuel2 + 1) acc
              = balanceAux req trace (i + 1) fuel2 w from by simp [balanceAux, h0, hnot]]
          rw [ih (i + 1) fuel2 w v (by omega) hbelow1 htr1 hge]
          rw [show i + 1 + d + 1 = i + (d + 1) + 1 from by omega]
      | error m =>
          rw [show balanceAux req trace i (fuel2 + 1) acc
              = balanceAux req trace (i + 1) fuel2 acc from by simp [balanceAux, h0]]
          rw [ih (i + 1) fuel2 acc v (by omega) hbelow1 htr1 hge]
          rw [show i + 1 + d + 1 = i + (d + 1) + 1 from by omega]

theorem balanceAux_exhaust (req : Nat) (trace : Nat → Except String Nat) :
    ∀ (fuel i acc : Nat),
      (∀ j, j < fuel → ∀ w, trace (i + j) = .ok w → w < req) →
      (balanceAux req trace i fuel acc).2 = i + fuel
      ∧ ((∃ j, j < fuel ∧ trace (i + j) = .ok (balanceAux req trace i fuel acc).1
            ∧ ∀ k, j < k → k < fuel → ∃ m, trace (i + k) = .error m)
         ∨ ((balanceAux req trace i fuel acc).1 = acc
            ∧ ∀ k, k < fuel → ∃ m, trace (i + k) = .error m)) := by
  intro fuel
  induction fuel with
  | zero =>
      intro i acc hbelow
      exact ⟨by simp [balanceAux], Or.inr ⟨by simp [balanceAux],
        fun k hk => absurd hk (by omega)⟩⟩
  | succ fuel ih =>
      intro i acc hbelow
      have hbelow1 : ∀ j, j < fuel → ∀ w, trace (i + 1 + j) = .ok w → w < req := by
        intro j hj w hw
        refine hbelow (j + 1) (by omega) w ?_
        rw [show i + (j + 1) = i + 1 + j from by omega]
        exact hw
      cases h0 : trace i with
      | ok w =>
          have hw : w < req := hbelow 0 (by omega) w (by simpa using h0)
          have hnot : ¬ req ≤ w := by omega
          have heq : balanceAux req trace i (fuel + 1) acc
              = balanceAux req trace (i + 1) fuel w := by simp [balanceAux, h0, hnot]
          obtain ⟨h2, hchar⟩ := ih (i + 1) w hbelow1
          rw [heq, h2]
          refine ⟨by omega, ?_⟩
          rcases hchar with ⟨j, hj, hok, herrs⟩ | ⟨hval, herrs⟩
          · left
            refine ⟨j + 1, by omega, ?_, ?_⟩
            · rw [show i + (j + 1) = i + 1 + j from by omega]
              exact hok
            · intro k hk1 hk2
              obtain ⟨k2, rfl⟩ : ∃ k2, k = k2 + 1 := ⟨k - 1, by omega⟩
              rw [show i + (k2 + 1) = i + 1 + k2 from by omega]
              exact herrs k2 (by omega) (by omega)
          · left
            refine ⟨0, by omega, ?_, ?_⟩
            · rw [hval]
              simpa using h0
            · intro k hk1 hk2
              obtain ⟨k2, rfl⟩ : ∃ k2, k = k2 + 1 := ⟨k - 1, by omega⟩
              rw [show i + (k2 + 1) = i + 1 + k2 from by omega]
              exact herrs k2 (by omega)
      | error m =>
          have heq : balanceAux req trace i (fuel + 1) acc
              = balanceAux req trace (i + 1) fuel acc := by simp [balanceAux, h0]
          obtain ⟨h2, hchar⟩ := ih (i + 1) acc hbelow1
          rw [heq, h2]
          refine ⟨by omega, ?_⟩
          rcases hchar with ⟨j, hj, hok, herrs⟩ | ⟨hval, herrs⟩
          · left
            refine ⟨j + 1, by omega, ?_, ?_⟩
            · rw [show i + (j + 1) = i + 1 + j from by omega]
              exact hok
            · intro k hk1 hk2
              obtain ⟨k2, rfl⟩ : ∃ k2, k = k2 + 1 := ⟨k - 1, by omega⟩
              rw [show i + (k2 + 1) = i + 1 + k2 from by omega]
              exact herrs k2 (by omega) (by omega)
          · right
            refine ⟨hval, ?_⟩
            intro k hk
            cases k with
            | zero => exact ⟨m, by simpa using h0⟩
            | succ k2 =>
                rw [show i + (k2 + 1) = i + 1 + k2 from by omega]
                exact herrs k2 (by omega)

/-- C4 (confirmed): the Balance Verifier only answers success with an
observed balance at or above the requirement; it breaks at the first
attempt whose fresh observation meets the requirement (having performed
exactly that many queries); and if all 10 attempts leave the balance
below the requirement it throws the insufficient-funds error carrying
the observed and required amounts. -/
theorem claim_C4_balance_verifier (req : Nat) (trace : Nat → Except String Nat) :
    (∀ b, balanceVerify req trace = .ok b → req ≤ b)
    ∧ (∀ i v, i < 10 →
         (∀ j, j < i → ∀ w, trace j = .ok w → w < req) →
         trace i = .ok v → req ≤ v → balanceRun req trace = (v, i + 1))
    ∧ (0 < req → (∀ j, j < 10 → ∀ w, trace j = .ok w → w < req) →
         (balanceRun req trace).1 < req
         ∧ balanceVerify req trace
             = .error (insufficientMsg (balanceRun req trace).1 req)) := by
  have hrun : balanceRun req trace = balanceAux req trace 0 10 0 := rfl
  refine ⟨?_, ?_, ?_⟩
  · intro b h
    by_cases hlt : (balanceRun req trace).1 < req
    · simp [balanceVerify, hlt] at h
    · simp [balanceVerify, hlt] at h
      rw [← h]
      omega
  · intro i v hi hbelow htr hge
    rw [hrun]
    rw [balanceAux_stops req trace i 0 10 0 v hi
      (fun j hj w hw => hbelow j hj w (by rwa [Nat.zero_add] at hw))
      (by rw [Nat.zero_add]; exact htr) hge]
    rw [Nat.zero_add]
  · intro h0 hbelow
    obtain ⟨hlen, hchar⟩ := balanceAux_exhaust req trace 10 0 0
      (fun j hj w hw => hbelow j hj w (by rwa [Nat.zero_add] at hw))
    have hfin : (balanceRun req trace).1 < req := by
      rw [hrun]
      rcases hchar with ⟨j, hj, hok, hrest⟩ | ⟨hval, hrest⟩
      · exact hbelow j hj _ (by rwa [Nat.zero_add] at hok)
      · rw [hval]
        exact h0
    exact ⟨hfin, by simp [balanceVerify, hfin]⟩

/-- C4 witness: the spec's scenario — a collaborator observing 500000 on
every attempt against a requirement of 1000000 exhausts the budget and
fails with observed=500000, required=1000000. -/
theorem claim_C4_witness :
    balanceVerify 1000000 (fun _ => Except.ok 500000)
      = .error (insufficientMsg 500000 1000000) := by
  have h := (claim_C4_balance_verifier 1000000 (fun _ => Except.ok 500000)).2.2
    (by omega) (fun j hj w hw => by injection hw with h2; omega)
  have hrun : (balanceRun 1000000 (fun _ => Except.ok 500000)).1 = 500000 := by decide
  rw [hrun] at h
  exact h.2

/-- C10 (confirmed): when the budget is exhausted, the reported observed
amount is the value of the most recent successful balance query (all
later attempts having raised), and it is 0 when every one of the 10
queries raised an error. -/
theorem claim_C10_observed_amount (req : Nat) (trace : Nat → Except String Nat)
    (h0 : 0 < req)
    (hbelow : ∀ j, j < 10 → ∀ w, trace j = .ok w → w < req) :
    (balanceVerify req trace
        = .error (insufficientMsg (balanceRun req trace).1 req))
    ∧ ((∃ j, j < 10 ∧ trace j = .ok (balanceRun req trace).1
          ∧ ∀ k, j < k → k < 10 → ∃ m, trace k = .error m)
       ∨ ((balanceRun req trace).1 = 0 ∧ ∀ k, k < 10 → ∃ m, trace k = .error m))
    ∧ ((∀ k, k < 10 → ∃ m, trace k = .error m) →
        balanceVerify req trace = .error (insufficientMsg 0 req)) := by
  have hrun : balanceRun req trace = balanceAux req trace 0 10 0 := rfl
  obtain ⟨hlen, hchar⟩ := balanceAux_exhaust req trace 10 0 0
    (fun j hj w hw => hbelow j hj w (by rwa [Nat.zero_add] at hw))
  have hfin : (balanceRun req trace).1 < req := by
    rw [hrun]
    rcases hchar with ⟨j, hj, hok, hrest⟩ | ⟨hval, hrest⟩
    · exact hbelow j hj _ (by rwa [Nat.zero_add] at hok)
    · rw [hval]
      exact h0
  refine ⟨by simp [balanceVerify, hfin], ?_, ?_⟩
  · rcases hchar with ⟨j, hj, hok, hrest⟩ | ⟨hval, hrest⟩
    · left
      refine ⟨j, hj, by rw [hrun]; rwa [Nat.zero_add] at hok, ?_⟩
      intro k hk1 hk2
      obtain ⟨m, hm⟩ := hrest k hk1 hk2
      exact ⟨m, by rwa [Nat.zero_add] at hm⟩
    · right
      refine ⟨by rw [hrun]; exact hval, ?_⟩
      intro k hk
      obtain ⟨m, hm⟩ := hrest k hk
      exact ⟨m, by rwa [Nat.zero_add] at hm⟩
  · intro herrall
    have hval : (balanceRun req trace).1 = 0 := by
      rw [hrun]
      rcases hchar with ⟨j, hj, hok, hrest⟩ | ⟨hval2, hrest⟩
      · obtain ⟨m, hm⟩ := herrall j hj
        rw [Nat.zero_add] at hok
        rw [hm] at hok
        cases hok
      · exact hval2
    rw [← hval]
    simp [balanceVerify, hfin]

/-- C10 witness: every query raising an error makes the failure report an
observed amount of 0 against the requirement. -/
theorem claim_C10_witness :
    balanceVerify 1000000 (fun _ => Except.error "node unavailable")
      = .error (insufficientMsg 0 1000000) :=
  ((claim_C10_observed_amount 1000000 (fun _ => Except.error "node unavailable")
      (by omega) (fun j hj w hw => by simp at hw)).2.2
    (fun k hk => ⟨"node unavailable", rfl⟩))

/-! ### Claim C3 — orchestrator deletes iff the pipeline succeeded -/

/-- C3 (confirmed): on a resolved session, the handler answers success
exactly when every pipeline stage succeeded; the store after the run is
the store with the session deleted when all stages succeeded, and the
unchanged store otherwise, so on any failure the session is still
retrievable. -/
theorem claim_C3_delete_iff_success (cfg : Config) (store : Store)
    (sid : String) (sess : SessionRecord) (fsig : Option String)
    (sigT : Nat → Except String (Option StatusValue))
    (balT : Nat → Except String Nat)
    (dep : DepositCall → Except String String)
    (wd : WithdrawCall → Except String String)
    (dev : Except String DeviceFetchResult)
    (hget : mapGet store sid = some sess) :
    ((executeTransaction cfg store (some sid) fsig sigT balT dep wd dev).1.isSuccess
        = stagesOk cfg fsig sigT balT dep wd dev)
    ∧ (executeTransaction cfg store (some sid) fsig sigT balT dep wd dev).2
        = (if stagesOk cfg fsig sigT balT dep wd dev = true
           then mapDelete store sid else store)
    ∧ (stagesOk cfg fsig sigT balT dep wd dev = false →
        mapGet (executeTransaction cfg store (some sid) fsig sigT balT dep wd dev).2 sid
          = some sess) := by
  simp only [executeTransaction, stagesOk, hget]
  repeat' split
  all_goals simp_all [ExecResponse.isSuccess, Except.toBool]

/-- C3 witness: a fully successful concrete run deletes the session. -/
theorem claim_C3_witness :
    (executeTransaction demoCfg demoStore (some "sid") none demoSigTrace
        demoBalTrace demoDeposit demoWithdraw demoDevice).2
      = mapDelete demoStore "sid" := by
  have h := (claim_C3_delete_iff_success demoCfg demoStore "sid" demoRec none
    demoSigTrace demoBalTrace demoDeposit demoWithdraw demoDevice (by decide)).2.1
  rw [h, if_pos (by decide)]

/-! ### Claim C7 — the three transaction encodings agree -/

theorem sixbit_roundtrip : ∀ v, v < 64 →
    asciiToSixbit (sixbitToAscii v) = v ∧ isB64Char (sixbitToAscii v) = true := by
  decide

theorem isB64Char_pad : isB64Char 61 = false := by decide

theorem decode_chunk1 (b0 : Nat) (h0 : b0 < 256) :
    base64Decode (b64EncodeBytes [b0]) = [b0] := by
  have hv0 := sixbit_roundtrip (b0 / 4) (by omega)
  have hv1 := sixbit_roundtrip (b0 % 4 * 16) (by omega)
  simp only [b64EncodeBytes, base64Decode, List.filter_cons, List.filter_nil,
    List.map_cons, List.map_nil, hv0.1, hv0.2, hv1.1, hv1.2, isB64Char_pad,
    if_true, if_false, b64DecodeSixbits]
  simp only [List.cons.injEq, and_true]
  omega

theorem decode_chunk2 (b0 b1 : Nat) (h0 : b0 < 256) (h1 : b1 < 256) :
    base64Decode (b64EncodeBytes [b0, b1]) = [b0, b1] := by
  have hv0 := sixbit_roundtrip (b0 / 4) (by omega)
  have hv1 := sixbit_roundtrip (b0 % 4 * 16 + b1 / 16) (by omega)
  have hv2 := sixbit_roundtrip (b1 % 16 * 4) (by omega)
  simp only [b64EncodeBytes, base64Decode, List.filter_cons, List.filter_nil,
    List.map_cons, List.map_nil, hv0.1, hv0.2, hv1.1, hv1.2, hv2.1, hv2.2,
    isB64Char_pad, if_true, if_false, b64DecodeSixbits]
  simp only [List.cons.injEq, and_true]
  constructor
  · omega
  · omega

theorem decode_chunk3 (b0 b1 b2 : Nat) (h0 : b0 < 256) (h1 : b1 < 256)
    (h2 : b2 < 256) (tail : List Nat) :
    base64Decode (b64EncodeBytes (b0 :: b1 :: b2 :: tail))
      = b0 :: b1 :: b2 :: base64Decode (b64EncodeBytes tail) := by
  have hv0 := sixbit_roundtrip (b0 / 4) (by omega)
  have hv1 := sixbit_roundtrip (b0 % 4 * 16 + b1 / 16) (by omega)
  have hv2 := sixbit_roundtrip (b1 % 16 * 4 + b2 / 64) (by omega)
  have hv3 := sixbit_roundtrip (b2 % 64) (by omega)
  rw [show b64EncodeBytes (b0 :: b1 :: b2 :: tail)
      = sixbitToAscii (b0 / 4) :: sixbitToAscii (b0 % 4 * 16 + b1 / 16)
        :: sixbitToAscii (b1 % 16 * 4 + b2 / 64) :: sixbitToAscii (b2 % 64)
        :: b64EncodeBytes tail from rfl]
  simp only [base64Decode, List.filter_cons, List.map_cons,
    hv0.1, hv0.2, hv1.1, hv1.2, hv2.1, hv2.2, hv3.1, hv3.2, if_true,
    b64DecodeSixbits]
  simp only [List.cons.injEq]
  refine ⟨by omega, by omega, by omega, trivial⟩

theorem b64_roundtrip (n : Nat) : ∀ bytes : List Nat, bytes.length ≤ n →
    (∀ b ∈ bytes, b < 256) → base64Decode (b64EncodeBytes bytes) = bytes := by
  induction n with
  | zero =>
      intro bytes hlen hb
      obtain rfl : bytes = [] := List.eq_nil_of_length_eq_zero (by omega)
      simp [b64EncodeBytes, base64Decode, b64DecodeSixbits]
  | succ n ih =>
      intro bytes hlen hb
      rcases bytes with _ | ⟨b0, _ | ⟨b1, _ | ⟨b2, tail⟩⟩⟩
      · simp [b64EncodeBytes, base64Decode, b64DecodeSixbits]
      · exact decode_chunk1 b0 (hb b0 (by simp))
      · exact decode_chunk2 b0 b1 (hb b0 (by simp)) (hb b1 (by simp))
      · rw [decode_chunk3 b0 b1 b2 (hb b0 (by simp)) (hb b1 (by simp))
          (hb b2 (by simp)) tail]
        rw [ih tail (by simp at hlen; omega) (fun b hb2 => hb b (by simp [hb2]))]

theorem map_mod256_id : ∀ l : List Nat, (∀ b ∈ l, b < 256) →
    l.map (fun b => b % 256) = l := by
  intro l
  induction l with
  | nil => simp
  | cons a t ih =>
      intro h2
      simp only [List.map_cons, List.cons.injEq]
      exact ⟨Nat.mod_eq_of_lt (h2 a (by simp)),
        ih (fun b hb => h2 b (by simp [hb]))⟩

/-- C7 (confirmed): for every byte sequence, the normalization of
`POST /api/send-transaction` maps the raw byte array, the base64 string
of those bytes, and the keyed object whose values are those bytes, to
the identical byte buffer — the byte sequence itself. -/
theorem claim_C7_encoding_agreement (bytes : List Nat)
    (h : ∀ b ∈ bytes, b < 256) :
    normalizeSignedTransaction (.rawArray bytes) = bytes
    ∧ normalizeSignedTransaction (.b64String (b64EncodeBytes bytes)) = bytes
    ∧ normalizeSignedTransaction (.keyedObject bytes) = bytes := by
  refine ⟨map_mod256_id bytes h, ?_, map_mod256_id bytes h⟩
  simp only [normalizeSignedTransaction]
  exact b64_roundtrip bytes.length bytes (Nat.le_refl _) h

/-- C7 witness: a concrete 4-byte transaction (exercising both the full
chunk and the padded tail) normalizes identically in all three
encodings. -/
theorem claim_C7_witness :
    normalizeSignedTransaction (.rawArray [0, 77, 255, 9]) = [0, 77, 255, 9]
    ∧ normalizeSignedTransaction
        (.b64String (b64EncodeBytes [0, 77, 255, 9])) = [0, 77, 255, 9]
    ∧ normalizeSignedTransaction (.keyedObject [0, 77, 255, 9]) = [0, 77, 255, 9] :=
  claim_C7_encoding_agreement [0, 77, 255, 9] (by decide)

/-! ### Claim C8 — deposit address: deterministic derivation, immutable
stored record -/

theorem executeTransaction_store_shape (cfg : Config) (s : Store)
    (sid : Option String) (fsig : Option String)
    (sigT : Nat → Except String (Option StatusValue))
    (balT : Nat → Except String Nat)
    (dep : DepositCall → Except String String)
    (wd : WithdrawCall → Except String String)
    (dev : Except String DeviceFetchResult) :
    (executeTransaction cfg s sid fsig sigT balT dep wd dev).2 = s
    ∨ ∃ sid2, sid = some sid2
        ∧ (executeTransaction cfg s sid fsig sigT balT dep wd dev).2
            = mapDelete s sid2 := by
  cases sid with
  | none => left; rfl
  | some sid2 =>
      simp only [executeTransaction]
      repeat' split
      all_goals first
        | (left; rfl)
        | (right; exact ⟨sid2, rfl, rfl⟩)

theorem keysNodup_applyStoreOp (s : Store) (hs : keysNodup s) (op : StoreOp) :
    keysNodup (applyStoreOp s op) := by
  cases op with
  | create secret rand clock =>
      exact keysNodup_sweepExpired _ 0 _ (keysNodup_mapSet _ _ _ hs)
  | execute cfg sid fsig sigT balT dep wd dev =>
      rcases executeTransaction_store_shape cfg s sid fsig sigT balT dep wd dev with
        he | ⟨sid2, hsid, he⟩
      · rw [show applyStoreOp s (StoreOp.execute cfg sid fsig sigT balT dep wd dev)
            = (executeTransaction cfg s sid fsig sigT balT dep wd dev).2 from rfl, he]
        exact hs
      · rw [show applyStoreOp s (StoreOp.execute cfg sid fsig sigT balT dep wd dev)
            = (executeTransaction cfg s sid fsig sigT balT dep wd dev).2 from rfl, he]
        exact keysNodup_mapDelete s sid2 hs

theorem applyStoreOp_get (s : Store) (hs : keysNodup s) (op : StoreOp)
    (k : String) (hf : freshFor k op) :
    ∀ r', mapGet (applyStoreOp s op) k = some r' → mapGet s k = some r' := by
  cases op with
  | create secret rand clock =>
      intro r' hget2
      have h1 : keysNodup (mapSet s (mkSessionId (clock 0) rand)
          (createSessionRecord secret clock)) := keysNodup_mapSet _ _ _ hs
      have h2 := mapGet_sweepExpired_nodup _ _ h1 0 k r'
        (by simpa [applyStoreOp, createSession] using hget2)
      rwa [mapGet_mapSet_ne _ _ _ _ hf] at h2
  | execute cfg sid fsig sigT balT dep wd dev =>
      intro r' hget2
      rcases executeTransaction_store_shape cfg s sid fsig sigT balT dep wd dev with
        he | ⟨sid2, hsid, he⟩
      · rwa [show applyStoreOp s (StoreOp.execute cfg sid fsig sigT balT dep wd dev)
            = (executeTransaction cfg s sid fsig sigT balT dep wd dev).2 from rfl,
          he] at hget2
      · rw [show applyStoreOp s (StoreOp.execute cfg sid fsig sigT balT dep wd dev)
            = (executeTransaction cfg s sid fsig sigT balT dep wd dev).2 from rfl,
          he] at hget2
        exact mapGet_mapDelete_nodup s hs sid2 k r' hget2

theorem foldl_applyStoreOp_get (ops : List StoreOp) :
    ∀ (s : Store) (k : String), keysNodup s → (∀ op ∈ ops, freshFor k op) →
      ∀ r', mapGet (ops.foldl applyStoreOp s) k = some r' → mapGet s k = some r' := by
  induction ops with
  | nil =>
      intro s k _ _ r' h
      simpa using h
  | cons op rest ih =>
      intro s k hs hf r' h
      exact applyStoreOp_get s hs op k (hf op (by simp)) r'
        (ih (applyStoreOp s op) k (keysNodup_applyStoreOp s hs op)
          (fun o ho => hf o (by simp [ho])) r' h)

/-- C8 (confirmed): the deposit address stored at creation is the pure
deterministic derivation `getAssociatedTokenAddress` applied to the
burner credential and the fixed mint/program identifiers (independent of
clock or anything else), and a stored session record is never mutated by
any later store operation: as long as the entry is still present, every
lookup returns the record exactly as inserted. -/
theorem claim_C8_deposit_address :
    (∀ (secret : Nat) (c1 c2 : Nat → Nat),
       (createSessionRecord secret c1).burnerATA
           = (createSessionRecord secret c2).burnerATA
       ∧ (createSessionRecord secret c1).burnerATA
           = getAssociatedTokenAddress usdcMint (pubkeyOf secret) false
               tokenProgramId associatedTokenProgramId)
    ∧ (∀ (ops : List StoreOp) (s : Store) (k : String),
        keysNodup s → (∀ op ∈ ops, freshFor k op) →
        ∀ r r', mapGet s k = some r →
          mapGet (ops.foldl applyStoreOp s) k = some r' → r' = r) := by
  constructor
  · intro secret c1 c2
    exact ⟨rfl, rfl⟩
  · intro ops s k hs hf r r' h1 h2
    have h3 := foldl_applyStoreOp_get ops s k hs hf r' h2
    rw [h1] at h3
    exact (Option.some.inj h3).symm

/-- C8 witness: after a later create-session call (with a distinct id)
runs against a store holding a record, looking that record up again
yields it unchanged. -/
theorem claim_C8_witness : demoRec = demoRec :=
  (claim_C8_deposit_address).2 [StoreOp.create 7 "xyz" (fun _ => 5)] demoStore "sid"
    (by show (List.map Prod.fst demoStore).Nodup; decide)
    (fun op hop => by
      rw [List.mem_singleton] at hop
      subst hop
      show mkSessionId 5 "xyz" ≠ "sid"
      decide)
    demoRec demoRec (by decide) (by decide)

end ExidVpn

